/-
  Verification of the Yuki_bot conversation backend against its
  natural-language specification.

  Shallow embedding conventions:
  * SQLite tables are lists of row structures; the on-disk layout is a map
    from path components to databases.
  * Python floats are modelled as rationals; the L2 norm (a square root)
    is carried as an explicit parameter constrained by `n * n = sqNorm v`.
  * Remote model calls are parameters of type `Res _` (ok value / error),
    so theorems quantify over every possible model behaviour.
  * Strings are Lean `String`s; Python `str.lower` is modelled by ASCII
    lowering, which agrees with Python on every character relevant here.
-/
import Mathlib

namespace YukiBot

/-- Result of a fallible call (remote model, SQLite, ...): models a Python
value-or-raised-exception outcome. -/
inductive Res (α : Type) where
  | ok (a : α) : Res α
  | err : Res α
deriving DecidableEq, Repr

/- ## Affection engine (src/core/Affection/Affection.py) -/

/-- `AffectionService.LEVEL_RANGES` (Affection.py lines 48-65):
entries are `(level, min_score, max_score)`. -/
def LEVEL_RANGES : List (Int × ℚ × ℚ) :=
  [ (-2, 0, 1), (-1, 11/10, 2), (0, 21/10, 3), (1, 31/10, 4),
    (2, 41/10, 5), (3, 51/10, 6), (4, 61/10, 7), (5, 71/10, 8),
    (6, 81/10, 9), (7, 91/10, 10), (8, 101/10, 11), (9, 111/10, 23/2),
    (10, 58/5, 12), (11, 121/10, 25/2), (12, 63/5, 129/10), (13, 13, 13) ]

/-- The scan loop inside `score_to_level`: first range whose closed interval
contains the score. -/
def findLevel : List (Int × ℚ × ℚ) → ℚ → Option Int
  | [], _ => none
  | (lvl, mn, mx) :: rest, s =>
      if mn ≤ s ∧ s ≤ mx then some lvl else findLevel rest s

/-- `AffectionService.score_to_level` (Affection.py lines 226-236). -/
def score_to_level (s : ℚ) : Int :=
  match findLevel LEVEL_RANGES s with
  | some lvl => lvl
  | none => if s < 0 then -2 else if 13 < s then 13 else -2

/-- The clamp applied to every score written back to the database
(Affection.py line 391 and line 563). -/
def clampScore (x : ℚ) : ℚ := max 0 (min 13 x)

/- ## String utilities shared by several services -/

/-- Substring test on character lists: Python's `needle in hay`. -/
def containsSub (needle : List Char) : List Char → Bool
  | [] => needle.isEmpty
  | c :: t => needle.isPrefixOf (c :: t) || containsSub needle t

/-- Python's `needle in hay` on strings. -/
def strContains (hay needle : String) : Bool :=
  containsSub needle.toList hay.toList

/-- ASCII lowering of one character; agrees with Python `str.lower` on
ASCII input. -/
def asciiLowerChar (c : Char) : Char :=
  if 'A' ≤ c ∧ c ≤ 'Z' then Char.ofNat (c.toNat + 32) else c

/-- ASCII lowering of a string (Chinese characters are untouched, exactly
as in Python). -/
def asciiLower (s : String) : String :=
  String.mk (s.toList.map asciiLowerChar)

/-- Python's `s.strip()` on a character list. -/
def trimChars (cs : List Char) : List Char :=
  ((cs.dropWhile Char.isWhitespace).reverse.dropWhile Char.isWhitespace).reverse

/-- Python's `s.strip()`. -/
def strTrim (s : String) : String := String.mk (trimChars s.toList)

/-- Helper for `splitLines`: accumulates the current line reversed. -/
def splitLinesAux : List Char → List Char → List (List Char)
  | [], acc => [acc.reverse]
  | c :: t, acc =>
      if c = '\n' then acc.reverse :: splitLinesAux t []
      else splitLinesAux t (c :: acc)

/-- Python's `s.split('\n')` on a character list. -/
def splitLines (cs : List Char) : List (List Char) := splitLinesAux cs []

/-- Python's `s[:n]` (slice of the first `n` characters). -/
def strTake (s : String) (n : ℕ) : String := String.mk (s.toList.take n)

/- ## Message splitter (src/core/message_splitter.py) -/

/-- Strip a leading `\d+[.、]\s*` numbering marker, as the regex in
`MessageSplitter._llm_split` (message_splitter.py line 165) does. -/
def stripNumbering (s : String) : String :=
  let cs := s.toList
  let digits := cs.takeWhile Char.isDigit
  if digits.isEmpty then s
  else
    match cs.drop digits.length with
    | c :: rest =>
        if c = '.' ∨ c = '、' then String.mk (rest.dropWhile Char.isWhitespace)
        else s
    | [] => s

/-- Parse the utility model's output into segments: split on newlines,
trim, drop empty lines, then strip numbering
(message_splitter.py lines 161-165). -/
def parseSegments (result : String) : List String :=
  let lines := splitLines (trimChars result.toList)
  let segs := (lines.map (fun l => String.mk (trimChars l))).filter
    (fun l => l ≠ "")
  segs.map stripNumbering

/-- `MessageSplitter.split_text` (message_splitter.py lines 53-83).

The utility-model call is abstracted as `llm : Option String`: `some out`
is a successful response body, `none` covers a transport failure or an
empty response, both of which make `_llm_split` fall back to `[text]`. -/
def splitText (enabled : Bool) (threshold : ℕ) (llm : Option String)
    (text : String) : List String :=
  if ¬enabled ∨ text.length < threshold then [text]
  else if strContains text "```" then [text]
  else
    match llm with
    | none => [text]
    | some out =>
        let segs := parseSegments out
        if segs.isEmpty then [text] else segs

/-- `MessageSplitter._calculate_delay` (message_splitter.py lines 236-259):
`min(len(segment) * typing_speed * jitter, max_delay)` where the caller
draws `jitter` uniformly from `[0.8, 1.2]`. -/
def calculateDelay (typingSpeed maxDelay : ℚ) (segLen : ℕ) (jitter : ℚ) : ℚ :=
  min (segLen * typingSpeed * jitter) maxDelay

/- ## Temporary blacklist (src/core/temp_blacklist.py) -/

/-- One row of the `temp_blacklist` table (user_id is the map key). -/
structure BanEntry where
  expiresAt : ℕ
  reason : Option String
  blockedAt : ℕ
  blockedBy : String
  hitCount : ℕ
deriving DecidableEq, Repr

/-- The `temp_blacklist` table: user_id is its primary key. -/
def BLState := String → Option BanEntry

/-- `TempBlacklist.unban` (temp_blacklist.py lines 91-112): delete the
user's row. -/
def blUnban (s : BLState) (u : String) : BLState :=
  fun x => if x = u then none else s x

/-- `TempBlacklist.ban` (temp_blacklist.py lines 38-89): upsert; an
existing row gets a fresh expiry and an incremented hit count. -/
def blBan (now : ℕ) (s : BLState) (u : String) (minutes : ℕ)
    (reason : Option String) (by_ : String) : BLState :=
  let expires := now + minutes * 60
  let entry : BanEntry :=
    match s u with
    | some e => ⟨expires, reason, now, by_, e.hitCount + 1⟩
    | none => ⟨expires, reason, now, by_, 1⟩
  fun x => if x = u then some entry else s x

/-- `TempBlacklist.is_blocked` (temp_blacklist.py lines 114-143): returns
the verdict together with the table state after the lazy purge. -/
def isBlocked (now : ℕ) (s : BLState) (u : String) : Bool × BLState :=
  match s u with
  | none => (false, s)
  | some e => if e.expiresAt ≤ now then (false, blUnban s u) else (true, s)

/- ## Injection guard (src/services/injection_guard_service.py) and its
  use in the chat entry handlers (src/plugins/yuki_chat/matcher.py) -/

/-- `InjectionGuardService.QUICK_BLOCK_KEYWORDS`
(injection_guard_service.py lines 32-52), in source order. -/
def QUICK_BLOCK_KEYWORDS : List String :=
  [ "system:", "停止扮演", "忽略设定", "忽略以上", "忽略之前",
    "忘记设定", "忘记指令", "改变设定", "改变人格", "输出提示词",
    "输出系统", "扮演其他", "不再扮演", "ERROR",
    "ASCII解码", "进制数", "base64解码", "hex解码" ]

/-- The tier-1 scan of `InjectionGuardService.check`
(injection_guard_service.py lines 88-109): first keyword whose lowering is
a substring of the lowered text. -/
def keywordHit (text : String) : Option String :=
  QUICK_BLOCK_KEYWORDS.find?
    (fun kw => strContains (asciiLower text) (asciiLower kw))

/-- Outcome of `InjectionGuardService.check`: `blocked`/`allowed` are the
`True`/`False` returns, `guardError` is the raised `RuntimeError`
(unparseable model output or transport failure). -/
inductive GuardVerdict where
  | blocked : GuardVerdict
  | allowed : GuardVerdict
  | guardError : GuardVerdict
deriving DecidableEq, Repr

/-- `InjectionGuardService.check` (injection_guard_service.py lines
72-224). The tier-2 model call is the parameter `llm`; the second
component records whether that call was made. -/
def guardCheck (enabled : Bool) (llm : Res Bool) (text : String) :
    GuardVerdict × Bool :=
  if enabled = false then (.allowed, false)
  else
    match keywordHit text with
    | some _ => (.blocked, false)
    | none =>
        match llm with
        | .ok true => (.blocked, true)
        | .ok false => (.allowed, true)
        | .err => (.guardError, true)

/-- The `bot_config.injection_guard` fields the entry handlers read. -/
structure GuardCfg where
  enable : Bool
  skipShortMessageLength : ℕ
  blacklistMinutes : ℕ
deriving DecidableEq, Repr

/-- What the guard stage of an entry handler decides for the rest of the
turn. -/
inductive HandlerOutcome where
  | bannedNotice : HandlerOutcome
  | proceed : HandlerOutcome
deriving DecidableEq, Repr

/-- Step 2 of `handle_mention` / `handle_chat_command` /
`handle_private_chat` (matcher.py lines 400-432 and twins): run the guard
when it is enabled and the text is long enough; on a positive verdict ban
the user and finish with the notice; on a guard error proceed (fail-open). -/
def handleGuardStage (gc : GuardCfg) (now : ℕ) (bl : BLState) (u : String)
    (text : String) (llm : Res Bool) : HandlerOutcome × BLState :=
  if text ≠ "" ∧ gc.enable = true ∧ gc.skipShortMessageLength ≤ text.length then
    match guardCheck gc.enable llm text with
    | (.blocked, _) =>
        (.bannedNotice,
          blBan now bl u gc.blacklistMinutes
            (some ("疑似注入攻击：" ++ strTake text 30)) "auto_guard")
    | (.allowed, _) => (.proceed, bl)
    | (.guardError, _) => (.proceed, bl)
  else (.proceed, bl)

/- ## Vector store (src/services/vector_service.py) -/

/-- Squared L2 norm of a vector (floats modelled as rationals). -/
def sqNorm (v : List ℚ) : ℚ := (v.map (fun x => x * x)).sum

/-- `FAISSVectorService._normalize_vector` (vector_service.py lines
372-377). The source computes `norm = np.linalg.norm(vec)` — the
non-negative square root of `sqNorm vec` — and divides by it when it is
positive; here that norm is the explicit parameter `norm`, constrained in
the theorems by `0 ≤ norm` and `norm * norm = sqNorm v`. -/
def normalizeVector (norm : ℚ) (v : List ℚ) : List ℚ :=
  if 0 < norm then v.map (fun x => x / norm) else v

/-- `EmbeddingClient.get_embedding` failure path (vector_service.py lines
97-103): any API error yields `np.zeros(vector_dim)`. -/
def embeddingFailureVector (dim : ℕ) : List ℚ := List.replicate dim 0

/-- "L2 norm within `1e-5` of `1`", phrased on the squared norm: since the
norm is non-negative, `|‖v‖ - 1| ≤ 1e-5` is equivalent to
`(1 - 1e-5)^2 ≤ sqNorm v ≤ (1 + 1e-5)^2`. -/
def unitNormApprox (v : List ℚ) : Prop :=
  (1 - 1/100000)^2 ≤ sqNorm v ∧ sqNorm v ≤ (1 + 1/100000)^2

/-- One row of a per-user `private_memories` table. -/
structure PrivRow where
  id : ℕ
  role : String
  content : String
  timestamp : ℕ
deriving DecidableEq, Repr

/-- One row of a per-user `group_memories` table (tagged with the group). -/
structure GrpRow where
  id : ℕ
  groupId : String
  role : String
  content : String
  timestamp : ℕ
deriving DecidableEq, Repr

/-- One row of a per-group `member_memories` table (tagged with the user). -/
structure MemberRow where
  id : ℕ
  userId : String
  role : String
  content : String
  timestamp : ℕ
  senderName : Option String
deriving DecidableEq, Repr

/-- An id-map entry of a user's private FAISS index: either a plain
private-row id or the `('group', id)` tuple used to discriminate group
memories (vector_service.py line 479). -/
inductive MemRef where
  | priv (id : ℕ) : MemRef
  | grp (id : ℕ) : MemRef
deriving DecidableEq, Repr

/-- A user's private database `user_{uid}.db` plus its FAISS id-map.
`nextPrivId` / `nextGroupId` model the two tables' AUTOINCREMENT
counters. The vector payloads are irrelevant to the claims about rows and
id-map discrimination and are not carried here. -/
structure UserStore where
  privateMems : List PrivRow
  groupMems : List GrpRow
  idMap : List MemRef
  nextPrivId : ℕ
  nextGroupId : ℕ
deriving DecidableEq, Repr

/-- A group database `group_{gid}.db` plus its FAISS id-map. -/
structure GroupStore where
  memberMems : List MemberRow
  idMap : List ℕ
  nextMemberId : ℕ
deriving DecidableEq, Repr

/-- The whole dual-database state: one store per user, one per group. -/
structure VectorState where
  users : String → UserStore
  groups : String → GroupStore

/-- Point update of a string-keyed map. -/
def updFun {α : Type} (f : String → α) (k : String) (v : α) :
    String → α :=
  fun x => if x = k then v else f x

/-- The composed text stored for a Q&A pair
(vector_service.py line 408). -/
def pairText (q r : String) : String := "User问: " ++ q ++ "\nBot答: " ++ r

/-- `FAISSVectorService.add_pair_memory` (vector_service.py lines 387-506)
on the row/id-map state. With a group id it writes the user's
`group_memories` (id-map entry discriminated as `grp`) and the group's
`member_memories`; without one it writes only the user's
`private_memories`. -/
def addPairMemory (enabled : Bool) (now : ℕ) (u q r : String)
    (g : Option String) (sender : Option String) (s : VectorState) :
    VectorState :=
  if enabled = false then s
  else
    match g with
    | some gid =>
        let us := s.users u
        let us' : UserStore :=
          { us with
            groupMems :=
              us.groupMems ++ [⟨us.nextGroupId, gid, "Pair", pairText q r, now⟩]
            idMap := us.idMap ++ [.grp us.nextGroupId]
            nextGroupId := us.nextGroupId + 1 }
        let gs := s.groups gid
        let gs' : GroupStore :=
          { gs with
            memberMems :=
              gs.memberMems ++
                [⟨gs.nextMemberId, u, "Pair", pairText q r, now, sender⟩]
            idMap := gs.idMap ++ [gs.nextMemberId]
            nextMemberId := gs.nextMemberId + 1 }
        ⟨updFun s.users u us', updFun s.groups gid gs'⟩
    | none =>
        let us := s.users u
        let us' : UserStore :=
          { us with
            privateMems :=
              us.privateMems ++ [⟨us.nextPrivId, "Pair", pairText q r, now⟩]
            idMap := us.idMap ++ [.priv us.nextPrivId]
            nextPrivId := us.nextPrivId + 1 }
        ⟨updFun s.users u us', s.groups⟩

/-- One formatted search result of `_search_private_memory`; `source` is
the table name recorded in the result dict. -/
structure SearchHit where
  id : ℕ
  role : String
  content : String
  timestamp : ℕ
  similarity : ℚ
  source : String
deriving DecidableEq, Repr

/-- Row lookup `SELECT ... FROM private_memories WHERE id = ?`. -/
def lookupPriv (tab : List PrivRow) (i : ℕ) : Option PrivRow :=
  tab.find? (fun row => row.id == i)

/-- Row lookup `SELECT ... FROM group_memories WHERE id = ?`. -/
def lookupGrp (tab : List GrpRow) (i : ℕ) : Option GrpRow :=
  tab.find? (fun row => row.id == i)

/-- The candidate-filtering loop of
`FAISSVectorService._search_private_memory` (vector_service.py lines
600-641). `candidates` are the `(index position, similarity)` pairs the
FAISS search produced — quantified over, since index contents are
abstract. Positions beyond the id-map, hits below threshold, and (without
`cross_scene`) group-discriminated entries are skipped. -/
def searchPrivateHits (idMap : List MemRef) (privTab : List PrivRow)
    (grpTab : List GrpRow) (threshold : ℚ) (crossScene : Bool) :
    List (ℕ × ℚ) → List SearchHit
  | [] => []
  | (idx, dist) :: rest =>
      let tail := searchPrivateHits idMap privTab grpTab threshold crossScene rest
      match idMap.get? idx with
      | none => tail
      | some ref =>
          if dist < threshold then tail
          else
            match ref with
            | .grp mid =>
                if crossScene then
                  match lookupGrp grpTab mid with
                  | some row =>
                      ⟨row.id, row.role, row.content, row.timestamp, dist,
                        "group_memories"⟩ :: tail
                  | none => tail
                else tail
            | .priv mid =>
                match lookupPriv privTab mid with
                | some row =>
                    ⟨row.id, row.role, row.content, row.timestamp, dist,
                      "private_memories"⟩ :: tail
                | none => tail

/- ## Memory GC (src/services/memory_gc_service.py) -/

/-- A private database as the GC service sees it: the two per-user tables
and the `private_memories` AUTOINCREMENT counter. -/
structure GCPrivateDB where
  privateMems : List PrivRow
  groupMems : List PrivRow
  nextId : ℕ
deriving DecidableEq, Repr

/-- The on-disk layout: path components to optional database. -/
def GCFS := List String → Option GCPrivateDB

/-- The database path the GC service reads, relative to the vector-db
base directory: `private/{user_id}/private.db`
(memory_gc_service.py lines 50-55, 93, 210, 262). -/
def gcDbPath (u : String) : List String := ["private", u, "private.db"]

/-- The database path the live vector service writes, relative to the same
base directory: `private/user_{user_id}.db`
(`FAISSVectorService._get_private_db_path`, vector_service.py lines
191-193). -/
def vsPrivateDbPath (u : String) : List String :=
  ["private", "user_" ++ u ++ ".db"]

/-- `MemoryGCService.get_user_memory_count` (memory_gc_service.py lines
52-79): private plus group rows; a missing database counts 0. -/
def getUserMemoryCount (fs : GCFS) (u : String) : ℕ :=
  match fs (gcDbPath u) with
  | none => 0
  | some db => db.privateMems.length + db.groupMems.length

/-- `ORDER BY timestamp ASC` over `private_memories`. -/
def sortByTimestamp (rows : List PrivRow) : List PrivRow :=
  rows.insertionSort (fun a b => a.timestamp ≤ b.timestamp)

/-- `MemoryGCService.get_oldest_memories` (memory_gc_service.py lines
81-120): ids and contents of the `limit` oldest `private_memories` rows. -/
def getOldestMemories (fs : GCFS) (u : String) (limit : ℕ) :
    List ℕ × List String :=
  match fs (gcDbPath u) with
  | none => ([], [])
  | some db =>
      let oldest := (sortByTimestamp db.privateMems).take limit
      (oldest.map (fun row => row.id), oldest.map (fun row => row.content))

/-- `math.ceil(count * num/den)` on exact rationals (the float products the
source takes here are exact at every value used in the theorems below). -/
def ceilRatio (count num den : ℕ) : ℕ := (count * num + (den - 1)) / den

/-- The batch start offsets of `range(0, len(documents), BATCH_SIZE)`. -/
def batchStarts (len batch : ℕ) : List ℕ :=
  (List.range ((len + (batch - 1)) / batch)).map (fun i => i * batch)

/-- `MemoryGCService.summarize_memories` (memory_gc_service.py lines
122-195): split the documents into batches of `BATCH_SIZE = 15`, call the
organizer model once per batch, and keep the non-empty responses. The
organizer call is the parameter `organizer` (`none` = failed or empty). -/
def summarizeMemories (organizer : List String → Option String)
    (docs : List String) : List String :=
  if docs.isEmpty then []
  else
    (batchStarts docs.length 15).filterMap
      (fun i =>
        (organizer ((docs.drop i).take 15)).bind
          (fun s => if s = "" then none else some s))

/-- `MemoryGCService.insert_summary_and_delete` (memory_gc_service.py
lines 197-240): insert one `role="summary"` row per summary into
`private_memories`, then delete the rows whose ids are in `oldIds`. -/
def insertSummaryAndDelete (now : ℕ) (db : GCPrivateDB) (oldIds : List ℕ)
    (summaries : List String) : GCPrivateDB :=
  let newRows :=
    (List.range summaries.length).zipWith
      (fun i s => PrivRow.mk (db.nextId + i) "summary" s now) summaries
  let afterInsert := db.privateMems ++ newRows
  { db with
    privateMems := afterInsert.filter (fun row => !(oldIds.contains row.id))
    nextId := db.nextId + summaries.length }

/-- `MemoryGCService.delete_oldest` (memory_gc_service.py lines 242-279)
with `DELETE_RATIO = 0.15`: returns the number of deleted rows and the new
layout. -/
def deleteOldest (fs : GCFS) (u : String) : ℕ × GCFS :=
  let count := getUserMemoryCount fs u
  if count = 0 then (0, fs)
  else
    let limit := ceilRatio count 15 100
    let oldIds := (getOldestMemories fs u limit).1
    if oldIds.isEmpty then (0, fs)
    else
      match fs (gcDbPath u) with
      | none => (oldIds.length, fs)
      | some db =>
          let db' :=
            { db with
              privateMems :=
                db.privateMems.filter (fun row => !(oldIds.contains row.id)) }
          (oldIds.length,
            fun p => if p = gcDbPath u then some db' else fs p)

/-- `GCResult` (memory_gc_service.py lines 22-31) minus the error field
(the model has no I/O exceptions). -/
structure GCResult where
  userId : String
  beforeCount : ℕ
  afterCount : ℕ
  deletedCount : ℕ
  summarizedCount : ℕ
  summaryGenerated : ℕ
deriving DecidableEq, Repr

/-- `MemoryGCService.gc_user` (memory_gc_service.py lines 281-339):
phase 1 deletes the oldest 15% above `DELETE_THRESHOLD = 200`; phase 2
summarizes the oldest 20% above `SUMMARIZE_THRESHOLD = 150` in batches of
15 and replaces them by the summaries. -/
def gcUser (organizer : List String → Option String) (now : ℕ) (fs : GCFS)
    (u : String) : GCResult × GCFS :=
  let before := getUserMemoryCount fs u
  let (deleted, fs1, current) :=
    if 200 < before then
      let (d, fs') := deleteOldest fs u
      (d, fs', getUserMemoryCount fs' u)
    else (0, fs, before)
  if 150 < current then
    let limit := ceilRatio current 20 100
    let (oldIds, docs) := getOldestMemories fs1 u limit
    if docs.isEmpty then
      (⟨u, before, getUserMemoryCount fs1 u, deleted, 0, 0⟩, fs1)
    else
      let summaries := summarizeMemories organizer docs
      if summaries.isEmpty then
        (⟨u, before, getUserMemoryCount fs1 u, deleted, 0, 0⟩, fs1)
      else
        match fs1 (gcDbPath u) with
        | none =>
            (⟨u, before, getUserMemoryCount fs1 u, deleted, oldIds.length,
              summaries.length⟩, fs1)
        | some db =>
            let fs2 : GCFS :=
              fun p =>
                if p = gcDbPath u then
                  some (insertSummaryAndDelete now db oldIds summaries)
                else fs1 p
            (⟨u, before, getUserMemoryCount fs2 u, deleted, oldIds.length,
              summaries.length⟩, fs2)
  else (⟨u, before, getUserMemoryCount fs1 u, deleted, 0, 0⟩, fs1)

/-- `n` "Pair" rows with ids `1..n` and ascending timestamps — the shape a
user store has after `n` stored turns. -/
def mkRows (n : ℕ) : List PrivRow :=
  (List.range n).map (fun i => ⟨i + 1, "Pair", "对话", i⟩)

/-- The layout after the live vector service stored 180 private turns for
user "42": the rows sit at `private/user_42.db`. -/
def seededFS : GCFS :=
  fun p => if p = vsPrivateDbPath "42" then some ⟨mkRows 180, [], 181⟩ else none

/-- An organizer stub that always returns a summary. -/
def organizerOK : List String → Option String := fun _ => some "摘要"

/- ## Knowledge graph storage (src/core/RAGM/graph_storage.py) -/

/-- A node's `properties` JSON; the claim concerns its `aliases` list. -/
structure Props where
  aliases : List String
deriving DecidableEq, Repr

/-- One row of the `nodes` table; `(userId, entity)` is UNIQUE. -/
structure NodeRow where
  userId : String
  entity : String
  entityType : Option String
  properties : Props
  createdAt : ℕ
  updatedAt : ℕ
deriving DecidableEq, Repr

/-- One row of the `edges` table; `(userId, source, target, relation)` is
UNIQUE. `timeRef` / `propsTimestamp` model the optional `time_ref` and
`timestamp` keys of the properties JSON. -/
structure EdgeRow where
  userId : String
  source : String
  target : String
  relation : String
  timeRef : Option String
  propsTimestamp : Option ℕ
  weight : ℚ
  createdAt : ℕ
  updatedAt : ℕ
deriving DecidableEq, Repr

/-- The alias-merging prologue of `GraphStorage.add_node`
(graph_storage.py lines 87-97): the alias is merged into the `properties`
dict passed to THIS call (defaulting to `{}`), not into the stored row. -/
def mergeAlias (properties : Option Props) (alias? : Option String) : Props :=
  let props := properties.getD ⟨[]⟩
  match alias? with
  | none => props
  | some a =>
      if a ∈ props.aliases then props else ⟨props.aliases ++ [a]⟩

/-- UNIQUE-key test for `nodes`. -/
def nodeKeyIs (u ent : String) (row : NodeRow) : Bool :=
  row.userId == u && row.entity == ent

/-- `GraphStorage.add_node` (graph_storage.py lines 66-115): upsert; on
conflict `entity_type`, `properties` and `updated_at` are overwritten with
the excluded (new) values. -/
def addNode (now : ℕ) (u ent : String) (entityType : Option String)
    (properties : Option Props) (alias? : Option String)
    (nodes : List NodeRow) : List NodeRow :=
  let props := mergeAlias properties alias?
  if nodes.any (nodeKeyIs u ent) then
    nodes.map
      (fun row =>
        if nodeKeyIs u ent row then
          { row with
            entityType := entityType
            properties := props
            updatedAt := now }
        else row)
  else nodes ++ [⟨u, ent, entityType, props, now, now⟩]

/-- UNIQUE-key test for `edges`. -/
def edgeKeyIs (u src tgt rel : String) (e : EdgeRow) : Bool :=
  e.userId == u && e.source == src && e.target == tgt && e.relation == rel

/-- `GraphStorage.add_edge` (graph_storage.py lines 117-162): upsert; on
conflict the properties are overwritten with the new ones and — per the
SQLite `DO UPDATE SET weight = weight + 0.1` — the EXISTING weight is
incremented by 0.1 (the passed `weight` argument is ignored then). -/
def addEdge (now : ℕ) (u src tgt rel : String) (timeRef : Option String)
    (weight : ℚ) (edges : List EdgeRow) : List EdgeRow :=
  let propsTs : Option ℕ := if timeRef.isSome then some now else none
  if edges.any (edgeKeyIs u src tgt rel) then
    edges.map
      (fun e =>
        if edgeKeyIs u src tgt rel e then
          { e with
            timeRef := timeRef
            propsTimestamp := propsTs
            weight := e.weight + 1/10
            updatedAt := now }
        else e)
  else edges ++ [⟨u, src, tgt, rel, timeRef, propsTs, weight, now, now⟩]

/-- Stored aliases of a `(user, entity)` node, if present. -/
def aliasesOfNode (nodes : List NodeRow) (u ent : String) :
    Option (List String) :=
  (nodes.find? (nodeKeyIs u ent)).map (fun row => row.properties.aliases)

/- ## AI orchestrator (src/services/ai_manager.py) -/

/-- The two config fields governing `AIManager.chat`'s failure paths:
`fallback.skip_organizer_on_failure` and `fallback.error_reply`. -/
structure ChatCfg where
  skipOrganizerOnFailure : Bool
  fallbackReply : String
deriving DecidableEq, Repr

/-- Outcomes of every fallible sub-step of one `AIManager.chat` turn, so
the theorems quantify over all model/storage behaviours. `kbSearch`,
`memSearch`, `graphSearch` are the raw retrieval calls (each absorbed to
empty on failure inside `search_knowledge` / `search_memory` / the
try-block at ai_manager.py lines 310-321); `organizer` and `generator`
are the two model calls; `rulesOk` is the `check_reply_rules` verdict;
`correction` is the rewrite call (internally caught, ai_manager.py lines
1261-1270); `affectionUpdate` is the post-commit `update_affection`
(ai_manager.py lines 445-449, not caught inside `chat`'s body). -/
structure StageOutcomes where
  kbSearch : Res String
  memSearch : Res String
  graphSearch : Res String
  organizer : Res String
  generator : Res String
  rulesOk : Bool
  correction : Res String
  affectionUpdate : Res Unit
deriving DecidableEq, Repr

/-- Retrieval absorption: failures degrade to the empty string. -/
def absorb : Res String → String
  | .ok s => s
  | .err => ""

/-- `AIManager._organize_context` (ai_manager.py lines 460-566): an empty
response falls back to `"User input: ..."`; an exception is swallowed into
that same trivial summary when `skip_organizer_on_failure` is set and
re-raised otherwise. -/
def organizeContext (cfg : ChatCfg) (o : StageOutcomes) (msg : String) :
    Res String :=
  match o.organizer with
  | .ok s => .ok (if s = "" then "User input: " ++ msg else s)
  | .err =>
      if cfg.skipOrganizerOnFailure then .ok ("User input: " ++ msg)
      else .err

/-- The body of `AIManager.chat`'s try-block (ai_manager.py lines
259-451). `_generate_reply` either returns the post-processed reply or
raises; its outcome is `o.generator` directly. -/
def chatBody (cfg : ChatCfg) (o : StageOutcomes) (msg : String) :
    Res String :=
  let _kbInfo := absorb o.kbSearch
  let _longMem := absorb o.memSearch
  let _graphMem := absorb o.graphSearch
  match organizeContext cfg o msg with
  | .err => .err
  | .ok _ =>
      match o.generator with
      | .err => .err
      | .ok reply =>
          let finalReply :=
            if o.rulesOk then reply
            else
              match o.correction with
              | .ok c => c
              | .err => "......"
          match o.affectionUpdate with
          | .err => .err
          | .ok _ => .ok finalReply

/-- `AIManager.chat` (ai_manager.py lines 238-458): the catch-all handler
turns any escaped exception into the configured fallback string. -/
def chat (cfg : ChatCfg) (o : StageOutcomes) (msg : String) : String :=
  match chatBody cfg o msg with
  | .ok s => s
  | .err => cfg.fallbackReply

/- # Theorems -/

/- ## C2: affection score bands -/

/-- C2 counterexample: the score `1.05` lies in `[0.0, 13.0]` but in NO
band of the 16-band table (`findLevel` scans every band and comes back
empty — the table has gaps such as `(1.0, 1.1)`), and `score_to_level`
falls through to `-2`. So the stored level is not "the band containing
the score": no such band exists. -/
theorem score_to_level_gap_cex :
    (0:ℚ) ≤ 21/20 ∧ (21/20:ℚ) ≤ 13 ∧
    findLevel LEVEL_RANGES (21/20) = none ∧
    score_to_level (21/20) = -2 := by
  refine ⟨by norm_num, by norm_num, ?_, ?_⟩
  · norm_num [LEVEL_RANGES, findLevel]
  · norm_num [score_to_level, LEVEL_RANGES, findLevel]

/-- In a band list whose bands are strictly increasing, every band after
the head starts strictly above the head's upper bound. -/
lemma bandsBelow :
    ∀ (L : List (Int × ℚ × ℚ)) (b : Int × ℚ × ℚ),
      List.Chain' (fun a c => a.2.2 < c.2.1) (b :: L) →
      (∀ r ∈ L, r.2.1 ≤ r.2.2) →
      ∀ r ∈ L, b.2.2 < r.2.1 := by
  intro L
  induction L with
  | nil => intro b _ _ r hr; exact absurd hr (List.not_mem_nil _)
  | cons c rest ih =>
      intro b hchain hne r hr
      rcases List.mem_cons.mp hr with rfl | hr'
      · exact (List.chain'_cons.mp hchain).1
      · have hbc : b.2.2 < c.2.1 := (List.chain'_cons.mp hchain).1
        have hcr : c.2.2 < r.2.1 :=
          ih c (List.chain'_cons.mp hchain).2
            (fun x hx => hne x (List.mem_cons_of_mem _ hx)) r hr'
        have hcc : c.2.1 ≤ c.2.2 := hne c (List.mem_cons_self _ _)
        linarith

/-- The scan loop returns the level of the band containing the score,
provided the band list is strictly increasing. -/
lemma findLevel_mem :
    ∀ (L : List (Int × ℚ × ℚ)) (s : ℚ) (lvl : Int) (mn mx : ℚ),
      List.Chain' (fun a c => a.2.2 < c.2.1) L →
      (∀ r ∈ L, r.2.1 ≤ r.2.2) →
      (lvl, mn, mx) ∈ L → mn ≤ s → s ≤ mx →
      findLevel L s = some lvl := by
  intro L
  induction L with
  | nil => intro s lvl mn mx _ _ hmem; exact absurd hmem (List.not_mem_nil _)
  | cons b rest ih =>
      intro s lvl mn mx hchain hne hmem h1 h2
      rcases List.mem_cons.mp hmem with rfl | hmem'
      · simp only [findLevel]
        rw [if_pos ⟨h1, h2⟩]
      · have hlt : b.2.2 < mn :=
          bandsBelow rest b hchain
            (fun x hx => hne x (List.mem_cons_of_mem _ hx))
            (lvl, mn, mx) hmem'
        obtain ⟨blvl, bmn, bmx⟩ := b
        simp only [findLevel]
        rw [if_neg (by push_neg; intro _; simp only at hlt; linarith)]
        exact ih s lvl mn mx hchain.tail
          (fun x hx => hne x (List.mem_cons_of_mem _ hx)) hmem' h1 h2

/-- `LEVEL_RANGES` is strictly increasing band by band. -/
lemma levelRangesChain :
    List.Chain' (fun a c : Int × ℚ × ℚ => a.2.2 < c.2.1) LEVEL_RANGES := by
  simp only [LEVEL_RANGES, List.chain'_cons, List.chain'_singleton]
  norm_num

/-- Every band of `LEVEL_RANGES` is a non-empty interval. -/
lemma levelRangesNonempty :
    ∀ r ∈ LEVEL_RANGES, r.2.1 ≤ r.2.2 := by
  intro r hr
  fin_cases hr <;> norm_num

/-- C2 amended: every score written back is clamped into `[0.0, 13.0]`,
and for every score that lies INSIDE one of the 16 bands `score_to_level`
returns that band's level. (Scores in the gaps between bands — e.g.
`1.0 < s < 1.1` — exist in `[0.0, 13.0]` and fall through to level `-2`,
which is what the counterexample exhibits.) -/
theorem affection_clamp_and_band_level :
    (∀ x : ℚ, 0 ≤ clampScore x ∧ clampScore x ≤ 13) ∧
    (∀ (s : ℚ) (lvl : Int) (mn mx : ℚ), (lvl, mn, mx) ∈ LEVEL_RANGES →
      mn ≤ s → s ≤ mx → score_to_level s = lvl) := by
  constructor
  · intro x
    exact ⟨le_max_left _ _, max_le (by norm_num) (min_le_left _ _)⟩
  · intro s lvl mn mx hmem h1 h2
    unfold score_to_level
    rw [findLevel_mem LEVEL_RANGES s lvl mn mx levelRangesChain
      levelRangesNonempty hmem h1 h2]

/-- Witness for C2 amended at concrete inputs: clamping `99` and the
score `5.5`, which sits in the band `(3, 5.1, 6.0)`. -/
theorem affection_clamp_and_band_level_witness :
    (0 ≤ clampScore 99 ∧ clampScore 99 ≤ 13) ∧ score_to_level (11/2) = 3 :=
  ⟨affection_clamp_and_band_level.1 99,
    affection_clamp_and_band_level.2 (11/2) 3 (51/10) 6
      (by norm_num [LEVEL_RANGES]) (by norm_num) (by norm_num)⟩

/- ## C5: splitter identity below the threshold -/

/-- C5 counterexample: with the splitter enabled and threshold 50, a
50-character text (length does NOT exceed the threshold) without a code
fence is sent to the utility model (`len(text) < threshold` is false at
equality), and the model's two-line answer is returned — not `[text]`. -/
theorem split_text_threshold_boundary_cex :
    ("宽宽宽宽宽宽宽宽宽宽宽宽宽宽宽宽宽宽宽宽宽宽宽宽宽宽宽宽宽宽宽宽宽宽宽宽宽宽宽宽宽宽宽宽宽宽宽宽宽宽".length ≤ 50) ∧
    (strContains "宽宽宽宽宽宽宽宽宽宽宽宽宽宽宽宽宽宽宽宽宽宽宽宽宽宽宽宽宽宽宽宽宽宽宽宽宽宽宽宽宽宽宽宽宽宽宽宽宽宽" "```" = false) ∧
    splitText true 50 (some "ab\ncd")
      "宽宽宽宽宽宽宽宽宽宽宽宽宽宽宽宽宽宽宽宽宽宽宽宽宽宽宽宽宽宽宽宽宽宽宽宽宽宽宽宽宽宽宽宽宽宽宽宽宽宽" =
      ["ab", "cd"] ∧
    splitText true 50 (some "ab\ncd")
      "宽宽宽宽宽宽宽宽宽宽宽宽宽宽宽宽宽宽宽宽宽宽宽宽宽宽宽宽宽宽宽宽宽宽宽宽宽宽宽宽宽宽宽宽宽宽宽宽宽宽" ≠
      ["宽宽宽宽宽宽宽宽宽宽宽宽宽宽宽宽宽宽宽宽宽宽宽宽宽宽宽宽宽宽宽宽宽宽宽宽宽宽宽宽宽宽宽宽宽宽宽宽宽宽"] := by
  refine ⟨by decide, by decide, by decide, by decide⟩

/-- C5 amended: for every text whose length is STRICTLY below the split
threshold and that contains no code fence, `split_text` returns `[text]`,
whatever the utility model would answer. -/
theorem split_text_below_threshold_id (enabled : Bool) (threshold : ℕ)
    (llm : Option String) (text : String) (_hen : enabled = true)
    (hlen : text.length < threshold)
    (_hfence : strContains text "```" = false) :
    splitText enabled threshold llm text = [text] := by
  simp [splitText, hlen]

/-- Witness for C5 amended: a 3-character text under threshold 50. -/
theorem split_text_below_threshold_id_witness :
    ("你好呀".length < 50) ∧ (strContains "你好呀" "```" = false) ∧
    splitText true 50 (some "你\n好") "你好呀" = ["你好呀"] :=
  ⟨by decide, by decide,
    split_text_below_threshold_id true 50 (some "你\n好") "你好呀" rfl
      (by decide) (by decide)⟩

/- ## C6: inter-segment delay lower bound -/

/-- C6 counterexample: with the default config (`typing_speed = 0.15`,
`max_delay = 5.0`), a 100-character segment and jitter `1.0 ∈ [0.8, 1.2]`,
the delay is capped at `5.0`, which is BELOW the claimed lower bound
`len * typing_speed * 0.8 = 12`. -/
theorem calculate_delay_cap_cex :
    ((8:ℚ)/10 ≤ 1 ∧ (1:ℚ) ≤ 12/10) ∧
    calculateDelay (3/20) 5 100 1 = 5 ∧
    calculateDelay (3/20) 5 100 1 < 100 * (3/20) * (8/10) := by
  refine ⟨⟨by norm_num, by norm_num⟩, ?_, ?_⟩
  · unfold calculateDelay
    norm_num
  · unfold calculateDelay
    norm_num

/-- C6 amended: the pause before the next segment is at least
`min(len(segment) * typing_speed * 0.8, max_delay)` — the claimed bound
holds only up to the `max_delay` cap. -/
theorem calculate_delay_lower_bound (typingSpeed maxDelay : ℚ) (segLen : ℕ)
    (jitter : ℚ) (hspeed : 0 ≤ typingSpeed) (hjit : 8/10 ≤ jitter) :
    min (segLen * typingSpeed * (8/10)) maxDelay ≤
      calculateDelay typingSpeed maxDelay segLen jitter := by
  unfold calculateDelay
  apply min_le_min _ le_rfl
  have h0 : (0:ℚ) ≤ segLen * typingSpeed := by positivity
  nlinarith

/-- Witness for C6 amended at the counterexample's configuration. -/
theorem calculate_delay_lower_bound_witness :
    min ((100:ℕ) * (3/20 : ℚ) * (8/10)) 5 ≤ calculateDelay (3/20) 5 100 1 :=
  calculate_delay_lower_bound (3/20) 5 100 1 (by norm_num) (by norm_num)

/- ## C7: temporary blacklist is_blocked -/

/-- C7: `is_blocked(u)` returns true iff, immediately after the call, a
row for `u` with expiry strictly in the future exists; and an
already-expired row is lazily deleted with the call returning false. -/
theorem is_blocked_iff_unexpired_row (now : ℕ) (u : String) (s : BLState) :
    ((isBlocked now s u).1 = true ↔
      ∃ e, (isBlocked now s u).2 u = some e ∧ now < e.expiresAt) ∧
    (∀ e, s u = some e → e.expiresAt ≤ now →
      (isBlocked now s u).1 = false ∧ (isBlocked now s u).2 u = none) := by
  rcases hs : s u with _ | e
  · simp [isBlocked, hs]
  · by_cases hexp : e.expiresAt ≤ now
    · simp [isBlocked, hs, hexp, blUnban]
    · constructor
      · simp only [isBlocked, hs, if_neg hexp]
        constructor
        · intro _
          exact ⟨e, rfl, by omega⟩
        · intro _
          trivial
      · intro e' he' hexp'
        injection he' with h
        subst h
        exact absurd hexp' hexp

/-- A blacklist holding one entry for "alice" that expires at time 100. -/
def demoState : BLState :=
  fun x => if x = "alice" then some ⟨100, none, 0, "auto_guard", 1⟩ else none

/-- Witness for C7 at time 100 (the entry has just expired): the call
returns false and purges the row. -/
theorem is_blocked_iff_unexpired_row_witness :
    (isBlocked 100 demoState "alice").1 = false ∧
    (isBlocked 100 demoState "alice").2 "alice" = none :=
  (is_blocked_iff_unexpired_row 100 "alice" demoState).2
    ⟨100, none, 0, "auto_guard", 1⟩ rfl (Nat.le_refl 100)

/- ## C3: stored vectors are unit-norm -/

/-- The zero vector has squared norm 0. -/
lemma sqNorm_replicate_zero (n : ℕ) : sqNorm (List.replicate n 0) = 0 := by
  simp [sqNorm]

/-- C3 counterexample: when the embedding call fails, `get_embedding`
returns the 1024-dim zero vector; its norm is 0, so `_normalize_vector`
returns it UNCHANGED, and the vector appended to the index has L2 norm 0,
not `1.0 ± 1e-5`. -/
theorem normalize_zero_vector_cex :
    normalizeVector 0 (embeddingFailureVector 1024) =
      embeddingFailureVector 1024 ∧
    sqNorm (normalizeVector 0 (embeddingFailureVector 1024)) = 0 ∧
    ¬ unitNormApprox (normalizeVector 0 (embeddingFailureVector 1024)) := by
  have hnv : normalizeVector 0 (embeddingFailureVector 1024) =
      embeddingFailureVector 1024 := by
    simp [normalizeVector]
  have hz : sqNorm (normalizeVector 0 (embeddingFailureVector 1024)) = 0 := by
    rw [hnv]
    exact sqNorm_replicate_zero 1024
  refine ⟨hnv, hz, ?_⟩
  intro h
  obtain ⟨hlo, _⟩ := h
  rw [hz] at hlo
  norm_num at hlo

/-- Dividing every component by `n` divides the squared norm by `n * n`. -/
lemma sqNorm_map_div (v : List ℚ) (n : ℚ) :
    sqNorm (v.map (fun x => x / n)) = sqNorm v / (n * n) := by
  induction v with
  | nil => simp [sqNorm]
  | cons x t ih =>
      simp only [List.map_cons, sqNorm, List.sum_cons] at ih ⊢
      rw [ih, div_mul_div_comm, div_add_div_same]

/-- C3 amended: whenever the embedding is non-zero, `_normalize_vector`
yields an exactly unit-norm vector (hence within the `1e-5` tolerance);
only the zero vector of a failed embedding call escapes normalization. -/
theorem normalize_unit_norm_of_nonzero (v : List ℚ) (n : ℚ)
    (hn : 0 ≤ n) (hnn : n * n = sqNorm v) (hpos : 0 < sqNorm v) :
    sqNorm (normalizeVector n v) = 1 ∧
      unitNormApprox (normalizeVector n v) := by
  have hn0 : 0 < n := by
    rcases lt_or_eq_of_le hn with h | h
    · exact h
    · exfalso
      rw [← h] at hnn
      simp at hnn
      rw [← hnn] at hpos
      exact lt_irrefl 0 hpos
  have h1 : sqNorm (normalizeVector n v) = 1 := by
    unfold normalizeVector
    rw [if_pos hn0, sqNorm_map_div, hnn]
    exact div_self (ne_of_gt hpos)
  refine ⟨h1, ?_, ?_⟩ <;> rw [h1] <;> norm_num

/-- Witness for C3 amended at the unit vector `[1, 0, 0]`. -/
theorem normalize_unit_norm_of_nonzero_witness :
    sqNorm (normalizeVector 1 [1, 0, 0]) = 1 ∧
    unitNormApprox (normalizeVector 1 [1, 0, 0]) :=
  normalize_unit_norm_of_nonzero [1, 0, 0] 1 (by norm_num)
    (by norm_num [sqNorm]) (by norm_num [sqNorm])

/- ## C10: tier-1 "ERROR" keyword blocks and bans -/

/-- A text containing "error" (in any ASCII casing) hits the tier-1
keyword list, because "ERROR" is on it. -/
lemma keywordHit_isSome_of_error (text : String)
    (h : strContains (asciiLower text) "error" = true) :
    (keywordHit text).isSome := by
  unfold keywordHit
  have hmem : "ERROR" ∈ QUICK_BLOCK_KEYWORDS := by decide
  have hlow : asciiLower "ERROR" = "error" := by decide
  rw [List.find?_isSome]
  exact ⟨"ERROR", hmem, by rw [hlow]; exact h⟩

/-- C10: any message whose text contains the substring "error" in any
casing is classified as an injection by the tier-1 keyword scan, with no
model call; and in the entry handlers (guard enabled, text non-empty and
at least the skip threshold long) this bans the user until
`now + blacklist_minutes * 60`. -/
theorem guard_error_keyword_ban (text : String) (llm : Res Bool)
    (herr : strContains (asciiLower text) "error" = true) :
    guardCheck true llm text = (.blocked, false) ∧
    (∀ (gc : GuardCfg) (now : ℕ) (bl : BLState) (u : String),
      gc.enable = true → gc.skipShortMessageLength ≤ text.length →
      text ≠ "" →
      (handleGuardStage gc now bl u text llm).1 = .bannedNotice ∧
      ∃ e, (handleGuardStage gc now bl u text llm).2 u = some e ∧
        e.expiresAt = now + gc.blacklistMinutes * 60) := by
  obtain ⟨kw, hkw⟩ :=
    Option.isSome_iff_exists.mp (keywordHit_isSome_of_error text herr)
  have hcheck : guardCheck true llm text = (.blocked, false) := by
    unfold guardCheck
    simp [hkw]
  refine ⟨hcheck, ?_⟩
  intro gc now bl u hen hlen hne
  unfold handleGuardStage
  rw [if_pos ⟨hne, hen, hlen⟩, hen, hcheck]
  refine ⟨rfl, ?_⟩
  cases hbu : bl u <;> simp [blBan, hbu]

/-- Witness for C10: the message "产生了ERROR日志" (length 9 ≥ threshold 5)
with a failing tier-2 model; the keyword path blocks it anyway and the
ban lands in the blacklist with expiry `0 + 30 * 60`. -/
theorem guard_error_keyword_ban_witness :
    guardCheck true Res.err "产生了ERROR日志" = (.blocked, false) ∧
    (handleGuardStage ⟨true, 5, 30⟩ 0 (fun _ => none) "u9" "产生了ERROR日志"
      Res.err).1 = .bannedNotice := by
  have h := guard_error_keyword_ban "产生了ERROR日志" Res.err (by decide)
  exact ⟨h.1,
    (h.2 ⟨true, 5, 30⟩ 0 (fun _ => none) "u9" rfl (by decide) (by decide)).1⟩

/- ## C9: orchestrator failure semantics -/

/-- A turn where the long-term memory retrieval raises but every model
call succeeds. -/
def cexOutcomes : StageOutcomes :=
  ⟨.ok "", .err, .ok "", .ok "摘要", .ok "你好", true, .ok "", .ok ()⟩

/-- C9 counterexample: with retrieval failing (an "internal stage fails"),
`chat` does NOT return the configured fallback string — the failure is
absorbed to empty context and the generated reply is returned. -/
theorem chat_retrieval_failure_not_fallback_cex :
    cexOutcomes.memSearch = Res.err ∧
    chat ⟨true, "内部错误"⟩ cexOutcomes "在吗" = "你好" ∧
    "你好" ≠ "内部错误" := by
  exact ⟨rfl, rfl, by decide⟩

/-- C9 amended: `chat` always returns a string and never propagates an
exception; a generator failure, a post-commit affection failure, or an
organizer failure with skipping disabled each yield the configured
fallback string, while retrieval failures (and organizer failures with
skipping enabled) are absorbed and the generated reply is returned. -/
theorem chat_failure_semantics (cfg : ChatCfg) (o : StageOutcomes)
    (msg : String) :
    (o.generator = Res.err → chat cfg o msg = cfg.fallbackReply) ∧
    (o.affectionUpdate = Res.err → chat cfg o msg = cfg.fallbackReply) ∧
    (o.organizer = Res.err → cfg.skipOrganizerOnFailure = false →
      chat cfg o msg = cfg.fallbackReply) ∧
    (∀ r, o.generator = Res.ok r → o.affectionUpdate = Res.ok () →
      o.rulesOk = true →
      (cfg.skipOrganizerOnFailure = true ∨ ∃ s, o.organizer = Res.ok s) →
      chat cfg o msg = r) := by
  refine ⟨?_, ?_, ?_, ?_⟩
  · intro hg
    cases h1 : organizeContext cfg o msg with
    | ok s => simp [chat, chatBody, h1, hg]
    | err => simp [chat, chatBody, h1]
  · intro ha
    cases h1 : organizeContext cfg o msg with
    | ok s =>
        cases h2 : o.generator with
        | ok r => simp [chat, chatBody, h1, h2, ha]
        | err => simp [chat, chatBody, h1, h2]
    | err => simp [chat, chatBody, h1]
  · intro ho hskip
    have h1 : organizeContext cfg o msg = Res.err := by
      simp [organizeContext, ho, hskip]
    simp [chat, chatBody, h1]
  · intro r hg ha hrules hor
    have h1 : ∃ s, organizeContext cfg o msg = Res.ok s := by
      rcases hor with hskip | ⟨s, hs⟩
      · cases ho : o.organizer with
        | ok s =>
            exact ⟨if s = "" then "User input: " ++ msg else s,
              by simp [organizeContext, ho]⟩
        | err =>
            exact ⟨"User input: " ++ msg,
              by simp [organizeContext, ho, hskip]⟩
      · exact ⟨if s = "" then "User input: " ++ msg else s,
          by simp [organizeContext, hs]⟩
    obtain ⟨s, hs⟩ := h1
    simp [chat, chatBody, hs, hg, ha, hrules]

/-- Witness for C9 amended: a turn whose generator call fails returns the
configured fallback reply. -/
theorem chat_failure_semantics_witness :
    chat ⟨true, "内部错误"⟩
      ⟨.ok "", .ok "", .ok "", .ok "摘要", .err, true, .ok "", .ok ()⟩
      "在吗" = "内部错误" :=
  (chat_failure_semantics ⟨true, "内部错误"⟩
    ⟨.ok "", .ok "", .ok "", .ok "摘要", .err, true, .ok "", .ok ()⟩
    "在吗").1 rfl

/- ## C8: graph node/edge upserts -/

/-- C8 counterexample: `add_node("u", "e", alias="A")` then
`add_node("u", "e", alias="B")` leaves the stored aliases `["B"]` — the
second upsert REPLACES the stored properties with the merge of its own
(empty) `properties` argument and alias, so "A" is lost instead of
accumulated. -/
theorem add_node_alias_overwrite_cex :
    aliasesOfNode
      (addNode 2 "u" "e" none none (some "B")
        (addNode 1 "u" "e" none none (some "A") [])) "u" "e" = some ["B"] ∧
    ((aliasesOfNode
      (addNode 2 "u" "e" none none (some "B")
        (addNode 1 "u" "e" none none (some "A") [])) "u" "e").getD
      []).contains "A" = false := by
  exact ⟨by decide, by decide⟩

/-- `List.find?` over an update-in-place map, when the update preserves
the predicate. -/
lemma find?_map_update {α : Type} (p : α → Bool) (f : α → α)
    (hpf : ∀ x, p x = true → p (f x) = true) :
    ∀ l : List α,
      List.find? p (l.map (fun x => if p x then f x else x)) =
        (List.find? p l).map f := by
  intro l
  induction l with
  | nil => simp
  | cons a t ih =>
      by_cases hpa : p a = true
      · simp [hpa, hpf a hpa, List.find?_cons_of_pos]
      · simp only [List.map_cons, if_neg hpa]
        rw [List.find?_cons_of_neg _ hpa, List.find?_cons_of_neg _ hpa]
        exact ih

/-- C8 amended: an `add_node` hitting an existing `(user, entity)` key
keeps the row count and REPLACES the stored properties by the merge of
the call's own `properties` argument with the call's alias (prior stored
aliases are not preserved unless passed in again); an `add_edge` hitting
an existing `(user, source, target, relation)` key keeps the row count
and increments the existing edge's weight by exactly 0.1, overwriting its
properties. -/
theorem graph_upsert_semantics :
    (∀ (now : ℕ) (u ent : String) (ty : Option String)
       (props : Option Props) (al : Option String) (nodes : List NodeRow),
       (nodes.find? (nodeKeyIs u ent)).isSome →
       (addNode now u ent ty props al nodes).length = nodes.length ∧
       aliasesOfNode (addNode now u ent ty props al nodes) u ent =
         some (mergeAlias props al).aliases) ∧
    (∀ (now : ℕ) (u src tgt rel : String) (tr : Option String) (w : ℚ)
       (edges : List EdgeRow) (e : EdgeRow),
       edges.find? (edgeKeyIs u src tgt rel) = some e →
       (addEdge now u src tgt rel tr w edges).length = edges.length ∧
       (addEdge now u src tgt rel tr w edges).find?
           (edgeKeyIs u src tgt rel) =
         some { e with
                timeRef := tr
                propsTimestamp := if tr.isSome then some now else none
                weight := e.weight + 1/10
                updatedAt := now }) := by
  constructor
  · intro now u ent ty props al nodes hfs
    have hany : nodes.any (nodeKeyIs u ent) = true := by
      rw [List.any_eq_true]
      obtain ⟨x, hx, hpx⟩ := List.find?_isSome.mp hfs
      exact ⟨x, hx, hpx⟩
    obtain ⟨x, hx⟩ := Option.isSome_iff_exists.mp hfs
    constructor
    · simp [addNode, hany]
    · unfold addNode aliasesOfNode
      rw [if_pos hany]
      rw [find?_map_update (nodeKeyIs u ent) _
        (by intro y hy; simpa [nodeKeyIs] using hy)]
      rw [hx]
      rfl
  · intro now u src tgt rel tr w edges e hfind
    have hany : edges.any (edgeKeyIs u src tgt rel) = true := by
      rw [List.any_eq_true]
      exact ⟨e, List.mem_of_find?_eq_some hfind,
        List.find?_some hfind⟩
    constructor
    · simp [addEdge, hany]
    · unfold addEdge
      rw [if_pos hany]
      rw [find?_map_update (edgeKeyIs u src tgt rel) _
        (by intro y hy; simpa [edgeKeyIs] using hy)]
      rw [hfind]
      rfl

/-- Witness for C8 amended: upserting the node `("u", "e")` a second time
with alias "B", and the edge `("u", "甲", "乙", "认识")` a second time —
the edge's weight goes from 1.0 to 1.1. -/
theorem graph_upsert_semantics_witness :
    ((addNode 2 "u" "e" none none (some "B")
        [⟨"u", "e", none, ⟨["A"]⟩, 1, 1⟩]).length = 1 ∧
      aliasesOfNode
        (addNode 2 "u" "e" none none (some "B")
          [⟨"u", "e", none, ⟨["A"]⟩, 1, 1⟩]) "u" "e" =
        some (mergeAlias none (some "B")).aliases) ∧
    ((addEdge 2 "u" "甲" "乙" "认识" none 1
        [⟨"u", "甲", "乙", "认识", none, none, 1, 1, 1⟩]).length = 1 ∧
      (addEdge 2 "u" "甲" "乙" "认识" none 1
        [⟨"u", "甲", "乙", "认识", none, none, 1, 1, 1⟩]).find?
          (edgeKeyIs "u" "甲" "乙" "认识") =
        some ⟨"u", "甲", "乙", "认识", none, none, 1 + 1/10, 1, 2⟩) :=
  ⟨graph_upsert_semantics.1 2 "u" "e" none none (some "B")
      [⟨"u", "e", none, ⟨["A"]⟩, 1, 1⟩] (by decide),
    graph_upsert_semantics.2 2 "u" "甲" "乙" "认识" none 1
      [⟨"u", "甲", "乙", "认识", none, none, 1, 1, 1⟩]
      ⟨"u", "甲", "乙", "认识", none, none, 1, 1, 1⟩ (by simp [edgeKeyIs])⟩

/- ## C4: group memory isolation -/

/-- Without `cross_scene`, the private-scope search loop never emits a hit
from the group table: every group-discriminated id-map entry is skipped. -/
lemma searchPrivateHits_no_group (idMap : List MemRef)
    (privTab : List PrivRow) (grpTab : List GrpRow) (threshold : ℚ) :
    ∀ (cands : List (ℕ × ℚ)) (hit : SearchHit),
      hit ∈ searchPrivateHits idMap privTab grpTab threshold false cands →
      hit.source = "private_memories" := by
  intro cands
  induction cands with
  | nil => intro hit h; simp [searchPrivateHits] at h
  | cons c rest ih =>
      intro hit h
      obtain ⟨idx, dist⟩ := c
      simp only [searchPrivateHits] at h
      repeat' split at h
      all_goals
        first
          | exact ih hit h
          | exact absurd (by assumption : false = true) (by simp)
          | (rcases List.mem_cons.mp h with rfl | h'
             · rfl
             · exact ih hit h')

/-- C4: posting in group `gid` appends exactly one row to U's
`group_memories` tagged with the group, one row to the group's
`member_memories` tagged with the user, leaves U's `private_memories`
unchanged — and a subsequent private-scope search with `cross_scene`
disabled returns only `private_memories` hits, never the
group-discriminated entry, for every possible FAISS candidate list. -/
theorem add_pair_group_memory_isolation (s : VectorState) (now : ℕ)
    (u q r gid : String) (sender : Option String) (threshold : ℚ)
    (candidates : List (ℕ × ℚ)) :
    ((addPairMemory true now u q r (some gid) sender s).users u).groupMems =
      (s.users u).groupMems ++
        [⟨(s.users u).nextGroupId, gid, "Pair", pairText q r, now⟩] ∧
    ((addPairMemory true now u q r (some gid) sender s).groups gid).memberMems =
      (s.groups gid).memberMems ++
        [⟨(s.groups gid).nextMemberId, u, "Pair", pairText q r, now, sender⟩] ∧
    ((addPairMemory true now u q r (some gid) sender s).users u).privateMems =
      (s.users u).privateMems ∧
    (searchPrivateHits
        ((addPairMemory true now u q r (some gid) sender s).users u).idMap
        ((addPairMemory true now u q r (some gid) sender s).users u).privateMems
        ((addPairMemory true now u q r (some gid) sender s).users u).groupMems
        threshold false candidates).all
      (fun hit => hit.source == "private_memories") = true := by
  refine ⟨?_, ?_, ?_, ?_⟩
  · simp [addPairMemory, updFun]
  · simp [addPairMemory, updFun]
  · simp [addPairMemory, updFun]
  · rw [List.all_eq_true]
    intro hit hmem
    have := searchPrivateHits_no_group
      ((addPairMemory true now u q r (some gid) sender s).users u).idMap
      ((addPairMemory true now u q r (some gid) sender s).users u).privateMems
      ((addPairMemory true now u q r (some gid) sender s).users u).groupMems
      threshold candidates hit hmem
    simp [this]

/-- An empty dual-database state. -/
def emptyVS : VectorState :=
  ⟨fun _ => ⟨[], [], [], 1, 1⟩, fun _ => ⟨[], [], 1⟩⟩

/-- Witness for C4 at a concrete store: user "u1" posts in group "g1"; the
new group row is the only group row, the private table stays empty, and a
private search over the candidate list `[(0, 1)]` yields no group hit. -/
theorem add_pair_group_memory_isolation_witness :
    ((addPairMemory true 5 "u1" "问题" "回答" (some "g1") (some "昵称")
        emptyVS).users "u1").groupMems =
      [⟨1, "g1", "Pair", pairText "问题" "回答", 5⟩] ∧
    ((addPairMemory true 5 "u1" "问题" "回答" (some "g1") (some "昵称")
        emptyVS).groups "g1").memberMems =
      [⟨1, "u1", "Pair", pairText "问题" "回答", 5, some "昵称"⟩] ∧
    ((addPairMemory true 5 "u1" "问题" "回答" (some "g1") (some "昵称")
        emptyVS).users "u1").privateMems = [] ∧
    (searchPrivateHits
        ((addPairMemory true 5 "u1" "问题" "回答" (some "g1") (some "昵称")
          emptyVS).users "u1").idMap
        ((addPairMemory true 5 "u1" "问题" "回答" (some "g1") (some "昵称")
          emptyVS).users "u1").privateMems
        ((addPairMemory true 5 "u1" "问题" "回答" (some "g1") (some "昵称")
          emptyVS).users "u1").groupMems
        0 false [(0, 1)]).all
      (fun hit => hit.source == "private_memories") = true :=
  add_pair_group_memory_isolation emptyVS 5 "u1" "问题" "回答" "g1"
    (some "昵称") 0 [(0, 1)]

/- ## C1: memory GC summarize path -/

/-- The GC service and the vector service disagree on where a user's
private store lives: `private/{u}/private.db` versus
`private/user_{u}.db`. For NO pair of users do the two paths coincide. -/
theorem gcDbPath_ne_vsPrivateDbPath (u v : String) :
    gcDbPath u ≠ vsPrivateDbPath v := by
  intro h
  have := congrArg List.length h
  simp [gcDbPath, vsPrivateDbPath] at this

set_option maxRecDepth 100000 in
/-- C1 failing input evaluated: user "42" whose private store — as
written by the live vector service — holds 180 rows. `gc_user` reads the
database at `private/42/private.db`, which the vector service never
creates, counts 0 rows, performs no summarization, and leaves all 180
rows untouched; the claimed result (36 read, 3 summaries, 147 left) does
not happen. -/
theorem gcUser_misses_vector_store_rows :
    seededFS (vsPrivateDbPath "42") = some ⟨mkRows 180, [], 181⟩ ∧
    seededFS (gcDbPath "42") = none ∧
    (gcUser organizerOK 1000 seededFS "42").1 = ⟨"42", 0, 0, 0, 0, 0⟩ ∧
    (gcUser organizerOK 1000 seededFS "42").2 (vsPrivateDbPath "42") =
      some ⟨mkRows 180, [], 181⟩ := by
  exact ⟨rfl, rfl, rfl, rfl⟩

/-- The layout the GC service itself expects: 180 rows at
`private/7/private.db`. -/
def gcSeededFS : GCFS :=
  fun p => if p = gcDbPath "7" then some ⟨mkRows 180, [], 181⟩ else none

set_option maxRecDepth 100000 in
/-- Supporting evaluation: on a database at the path the GC service
itself reads, `gc_user` over 180 rows does exactly what the claim's
arithmetic says — reads the oldest 36 (20%), calls the organizer on 3
batches of 15 yielding 3 summaries, inserts 3 `role="summary"` rows,
deletes the 36 originals, and leaves 147 rows. The slip is only the
path. -/
theorem gcUser_summarize_path_on_own_db :
    (gcUser organizerOK 1000 gcSeededFS "7").1 = ⟨"7", 180, 147, 0, 36, 3⟩ ∧
    ((gcUser organizerOK 1000 gcSeededFS "7").2 (gcDbPath "7")).map
      (fun db =>
        ((db.privateMems.filter (fun row => row.role == "summary")).length,
          db.privateMems.length)) = some (3, 147) := by
  exact ⟨by decide, by decide⟩

end YukiBot
